import Mathlib

/-!
Verification of `src/api/transform/openai-format.ts`: the bidirectional
message-format translator between the Anthropic content-block message model
(format A) and the OpenAI chat-completion message model (format B).

The TypeScript source is shallowly embedded below: every function of the
module (`getImageUrl`, `convertToOpenAiMessages`, `convertToAnthropicMessage`)
becomes an executable Lean definition over inductive types mirroring the two
wire schemas.  The JavaScript builtins `JSON.stringify` / `JSON.parse` are
modelled by an executable serializer and a fuel-based recursive-descent
parser over a `Json` inductive (numbers are modelled as integers and the
rare string escapes are reduced to the common set; no claim below depends
on those corners — only on whether parsing succeeds or fails and on the
serialization being a function of the input value).  The `console.error`
diagnostic side effect of the reverse translator is made explicit: the
embedded `convertToAnthropicMessage` returns the produced message together
with the list of diagnostic log entries.
-/

/-! ## JSON values, serialization and parsing (model of the JS builtins) -/

/-- A JSON value, as produced by `JSON.parse` and consumed by
`JSON.stringify`.  Numbers are modelled as integers. -/
inductive Json where
  | null
  | bool (b : Bool)
  | num (n : Int)
  | str (s : String)
  | arr (elems : List Json)
  | obj (fields : List (String × Json))
deriving Repr

def Json.escapeChar (c : Char) : String :=
  if c = '"' then "\\\""
  else if c = '\\' then "\\\\"
  else if c = '\n' then "\\n"
  else if c = '\t' then "\\t"
  else if c = '\r' then "\\r"
  else String.singleton c

def Json.quote (s : String) : String :=
  "\"" ++ String.join (s.data.map Json.escapeChar) ++ "\""

mutual

/-- Model of `JSON.stringify` on the `Json` value model. -/
def Json.stringify : Json → String
  | .null => "null"
  | .bool b => if b then "true" else "false"
  | .num n => toString n
  | .str s => Json.quote s
  | .arr es => "[" ++ String.intercalate "," (stringifyList es) ++ "]"
  | .obj fs => "\x7b" ++ String.intercalate "," (stringifyFields fs) ++ "\x7d"

def stringifyList : List Json → List String
  | [] => []
  | j :: js => Json.stringify j :: stringifyList js

def stringifyFields : List (String × Json) → List String
  | [] => []
  | f :: fs => (Json.quote f.1 ++ ":" ++ Json.stringify f.2) :: stringifyFields fs

end

def skipWs : List Char → List Char
  | c :: cs => if c = ' ' ∨ c = '\n' ∨ c = '\t' ∨ c = '\r' then skipWs cs else c :: cs
  | [] => []

def isDigitChar (c : Char) : Bool := '0' ≤ c ∧ c ≤ '9'

def takeDigits : List Char → List Char × List Char
  | c :: cs =>
    if isDigitChar c then
      let r := takeDigits cs
      (c :: r.1, r.2)
    else ([], c :: cs)
  | [] => ([], [])

def digitsToNat (ds : List Char) : Nat :=
  ds.foldl (fun acc c => acc * 10 + (c.toNat - 48)) 0

def parseStringChars : Nat → List Char → Option (List Char × List Char)
  | 0, _ => none
  | _ + 1, [] => none
  | fuel + 1, c :: cs =>
    if c = '"' then some ([], cs)
    else if c = '\\' then
      match cs with
      | [] => none
      | e :: cs2 =>
        let esc : Option Char :=
          if e = '"' then some '"'
          else if e = '\\' then some '\\'
          else if e = '/' then some '/'
          else if e = 'n' then some '\n'
          else if e = 't' then some '\t'
          else if e = 'r' then some '\r'
          else if e = 'b' then some (Char.ofNat 8)
          else if e = 'f' then some (Char.ofNat 12)
          else none
        match esc with
        | some ec => (parseStringChars fuel cs2).map (fun r => (ec :: r.1, r.2))
        | none => none
    else (parseStringChars fuel cs).map (fun r => (c :: r.1, r.2))

mutual

/-- Fuel-based recursive-descent JSON value grammar (model of `JSON.parse`). -/
def parseValue : Nat → List Char → Option (Json × List Char)
  | 0, _ => none
  | fuel + 1, cs =>
    match skipWs cs with
    | [] => none
    | c :: rest =>
      if c = 'n' then
        match rest with
        | 'u' :: 'l' :: 'l' :: r => some (Json.null, r)
        | _ => none
      else if c = 't' then
        match rest with
        | 'r' :: 'u' :: 'e' :: r => some (Json.bool true, r)
        | _ => none
      else if c = 'f' then
        match rest with
        | 'a' :: 'l' :: 's' :: 'e' :: r => some (Json.bool false, r)
        | _ => none
      else if c = '"' then
        (parseStringChars (rest.length + 1) rest).map (fun r => (Json.str (String.mk r.1), r.2))
      else if c = '[' then
        match skipWs rest with
        | ']' :: r => some (Json.arr [], r)
        | r2 => (parseArrayItems fuel r2).map (fun r => (Json.arr r.1, r.2))
      else if c = '\x7b' then
        match skipWs rest with
        | '\x7d' :: r => some (Json.obj [], r)
        | r2 => (parseObjectItems fuel r2).map (fun r => (Json.obj r.1, r.2))
      else if c = '-' then
        match takeDigits rest with
        | ([], _) => none
        | (ds, r) => some (Json.num (-(digitsToNat ds : Int)), r)
      else if isDigitChar c then
        match takeDigits (c :: rest) with
        | (ds, r) => some (Json.num (digitsToNat ds : Int), r)
      else none

def parseArrayItems : Nat → List Char → Option (List Json × List Char)
  | 0, _ => none
  | fuel + 1, cs =>
    match parseValue fuel cs with
    | none => none
    | some (v, rest) =>
      match skipWs rest with
      | ',' :: r2 => (parseArrayItems fuel r2).map (fun r => (v :: r.1, r.2))
      | ']' :: r2 => some ([v], r2)
      | _ => none

def parseObjectItems : Nat → List Char → Option (List (String × Json) × List Char)
  | 0, _ => none
  | fuel + 1, cs =>
    match skipWs cs with
    | '"' :: rest =>
      match parseStringChars (rest.length + 1) rest with
      | none => none
      | some (key, r1) =>
        match skipWs r1 with
        | ':' :: r2 =>
          match parseValue fuel r2 with
          | none => none
          | some (v, r3) =>
            match skipWs r3 with
            | ',' :: r4 => (parseObjectItems fuel r4).map (fun r => ((String.mk key, v) :: r.1, r.2))
            | '\x7d' :: r4 => some ([(String.mk key, v)], r4)
            | _ => none
        | _ => none
    | _ => none

end

/-- Model of `JSON.parse`: `none` exactly when the JS builtin would throw. -/
def Json.parse (s : String) : Option Json :=
  match parseValue (2 * s.length + 16) s.data with
  | some (j, rest) => if skipWs rest = [] then some j else none
  | none => none

/-! ## Format A (Anthropic `MessageParam`) data model -/

/-- Model of `ImageBlockParam.source`: either `\x7btype: "base64", media_type, data\x7d`
or `\x7btype: "url", url\x7d`. -/
inductive ImageSource where
  | base64 (media_type : String) (data : String)
  | url (u : String)
deriving Repr, DecidableEq

/-- A text or image block, as appears both inside a user/assistant content
array and inside a `tool_result` block's content array. -/
inductive TextOrImage where
  | text (t : String)
  | image (src : ImageSource)
deriving Repr, DecidableEq

/-- Model of `ToolResultBlockParam.content`: a plain string or an array of text/image
blocks.  The field is optional in the SDK; optionality is carried by the
`Option` wrapping at the use site. -/
inductive ToolResultContent where
  | str (s : String)
  | parts (ps : List TextOrImage)
deriving Repr, DecidableEq

/-- Model of `Anthropic.Messages.ContentBlockParam`, restricted to the four block
kinds the translator distinguishes (`text`, `image`, `tool_use`,
`tool_result`). -/
inductive ContentBlock where
  | text (t : String)
  | image (src : ImageSource)
  | toolUse (id : String) (name : String) (input : Json)
  | toolResult (tool_use_id : String) (content : Option ToolResultContent)
deriving Repr

/-- Model of `MessageParam.content`: a plain string or an array of content blocks. -/
inductive AContent where
  | str (s : String)
  | blocks (bs : List ContentBlock)
deriving Repr

inductive ARole where
  | user
  | assistant
deriving Repr, DecidableEq

/-- Model of `Anthropic.Messages.MessageParam`. -/
structure MessageParam where
  role : ARole
  content : AContent
deriving Repr

/-! ## Format B (OpenAI chat-completion request) data model -/

/-- A part of a user message content array: `\x7btype: "text", text\x7d` or
`\x7btype: "image_url", image_url: \x7burl\x7d\x7d`. -/
inductive BContentPart where
  | text (t : String)
  | imageUrl (url : String)
deriving Repr, DecidableEq

/-- User-turn content: a string or an array of parts. -/
inductive BContent where
  | str (s : String)
  | parts (ps : List BContentPart)
deriving Repr, DecidableEq

/-- Model of `ChatCompletionMessageToolCall`: `\x7bid, type: "function",
function: \x7bname, arguments\x7d\x7d` (the `type` discriminant is the
constant `"function"` and is left implicit). -/
structure BToolCall where
  id : String
  name : String
  arguments : String
deriving Repr, DecidableEq

/-- Model of `ChatCompletionMessageParam`, restricted to the role shapes the forward
translator emits: a user turn, an assistant turn (content and `tool_calls`
both optional — an absent field, JS `undefined`, is `none`), and a tool turn
carrying its `tool_call_id`. -/
inductive OpenAiMessage where
  | user (content : BContent)
  | assistant (content : Option String) (tool_calls : Option (List BToolCall))
  | tool (tool_call_id : String) (content : String)
deriving Repr, DecidableEq

/-! ## Forward translator: `convertToOpenAiMessages` -/

/-- Embedding of `getImageUrl` (lines 12–28 of the source): build the `image_url` part for
an Anthropic image block — a `data:<media_type>;base64,<data>` URI for a
base64 source, the source URL verbatim for a URL source. -/
def getImageUrl : ImageSource → BContentPart
  | .base64 media_type data => .imageUrl ("data:" ++ media_type ++ ";base64," ++ data)
  | .url u => .imageUrl u

/-- A user-authored `tool_result` block after partitioning: its
`tool_use_id` and its (optional) content. -/
structure ToolResultMsg where
  tool_use_id : String
  content : Option ToolResultContent
deriving Repr

/-- The `reduce` of the user branch (lines 43–56): partition the content
blocks into text/image blocks (`nonToolMessages`) and `tool_result` blocks
(`toolMessages`), preserving order; `tool_use` blocks are dropped ("user
cannot send tool_use messages"). -/
def partitionUserBlocks (blocks : List ContentBlock) :
    List TextOrImage × List ToolResultMsg :=
  blocks.foldl
    (fun acc part =>
      match part with
      | .toolResult id c => (acc.1, acc.2 ++ [⟨id, c⟩])
      | .text t => (acc.1 ++ [.text t], acc.2)
      | .image src => (acc.1 ++ [.image src], acc.2)
      | .toolUse _ _ _ => acc)
    ([], [])

/-- The `reduce` of the assistant branch (lines 113–126): partition into
text/image blocks and `tool_use` blocks, preserving order; `tool_result`
blocks are dropped ("assistant cannot send tool_result messages"). -/
def partitionAssistantBlocks (blocks : List ContentBlock) :
    List TextOrImage × List (String × String × Json) :=
  blocks.foldl
    (fun acc part =>
      match part with
      | .toolUse id name input => (acc.1, acc.2 ++ [(id, name, input)])
      | .text t => (acc.1 ++ [.text t], acc.2)
      | .image src => (acc.1 ++ [.image src], acc.2)
      | .toolResult _ _ => acc)
    ([], [])

/-- Flattening of a tool message's content to a string (lines 61–77): a
string content is kept; an absent content becomes `""`; a block-array
content is mapped part-by-part (an image part becomes the literal
placeholder and is pushed onto `toolResultImages`) and joined with `"\n"`.
Returns the string together with the collected images. -/
def flattenToolResultContent : Option ToolResultContent → String × List ImageSource
  | none => ("", [])
  | some (.str s) => (s, [])
  | some (.parts ps) =>
    (String.intercalate "\n"
      (ps.map fun part =>
        match part with
        | .image _ => "(see following user message for image)"
        | .text t => t),
     ps.filterMap fun part =>
       match part with
       | .image src => some src
       | .text _ => none)

/-- The user branch of the loop (lines 42–111): tool turns first — one
`role: "tool"` turn per `tool_result` block, `tool_call_id` = its
`tool_use_id`, content flattened to a string — then, when `nonToolMessages`
is non-empty, one `role: "user"` turn with the text/image parts converted
block-by-block.  The images collected by `flattenToolResultContent` are
dropped (the re-emission block in the source is commented out). -/
def convertUserBlocks (blocks : List ContentBlock) : List OpenAiMessage :=
  let p := partitionUserBlocks blocks
  let toolTurns := p.2.map fun toolMessage =>
    OpenAiMessage.tool toolMessage.tool_use_id (flattenToolResultContent toolMessage.content).1
  let userTurns :=
    if p.1.length > 0 then
      [OpenAiMessage.user (.parts (p.1.map fun part =>
        match part with
        | .image src => getImageUrl src
        | .text t => .text t))]
    else []
  toolTurns ++ userTurns

/-- The assistant branch of the loop (lines 112–157): `content` is the
text parts joined with `"\n"` (`undefined` when there are none; an image
part — impossible upstream — maps to `""`); `tool_calls` maps each
`tool_use` block to `\x7bid, type: "function", function: \x7bname,
arguments: JSON.stringify(input)\x7d\x7d` and is `undefined` (never `[]`)
when there are no `tool_use` blocks. -/
def convertAssistantBlocks (blocks : List ContentBlock) : OpenAiMessage :=
  let p := partitionAssistantBlocks blocks
  let content : Option String :=
    if p.1.length > 0 then
      some (String.intercalate "\n"
        (p.1.map fun part =>
          match part with
          | .image _ => ""
          | .text t => t))
    else none
  let tool_calls : List BToolCall :=
    p.2.map fun toolMessage => ⟨toolMessage.1, toolMessage.2.1, Json.stringify toolMessage.2.2⟩
  OpenAiMessage.assistant content (if tool_calls.length > 0 then some tool_calls else none)

/-- One iteration of the loop of `convertToOpenAiMessages`: the format-B
turns pushed for a single format-A message. -/
def convertMessage (m : MessageParam) : List OpenAiMessage :=
  match m.content with
  | .str s =>
    match m.role with
    | .user => [OpenAiMessage.user (.str s)]
    | .assistant => [OpenAiMessage.assistant (some s) none]
  | .blocks bs =>
    match m.role with
    | .user => convertUserBlocks bs
    | .assistant => [convertAssistantBlocks bs]

/-- Embedding of `convertToOpenAiMessages` (lines 30–162): fold over the input messages,
appending the turns each one produces. -/
def convertToOpenAiMessages (anthropicMessages : List MessageParam) : List OpenAiMessage :=
  anthropicMessages.foldl (fun acc m => acc ++ convertMessage m) []

/-! ## Format B response and reverse translator: `convertToAnthropicMessage` -/

/-- Model of `ChatCompletionMessage`: `content` is `string | null`, `tool_calls` is
optional; `role` is the constant `"assistant"`. -/
structure CompletionMessage where
  content : Option String
  tool_calls : Option (List BToolCall)
deriving Repr

/-- One `ChatCompletion.Choice`: the message and the finish reason.  The
finish reason is kept as the raw string the JS `switch` scrutinizes, so
unrecognized values are representable. -/
structure CompletionChoice where
  message : CompletionMessage
  finish_reason : String
deriving Repr

/-- Model of `CompletionUsage` (the token counters the translator reads). -/
structure CompletionUsage where
  prompt_tokens : Nat
  completion_tokens : Nat
deriving Repr

/-- Model of `OpenAI.Chat.Completions.ChatCompletion`, restricted to the fields the
translator reads. -/
structure ChatCompletion where
  id : String
  model : String
  choices : List CompletionChoice
  usage : Option CompletionUsage
deriving Repr

inductive StopReason where
  | end_turn
  | max_tokens
  | tool_use
deriving Repr, DecidableEq

/-- The `switch` on `completion.choices[0].finish_reason` (lines 179–191):
`"stop" → end_turn`, `"length" → max_tokens`, `"tool_calls" → tool_use`,
everything else (the explicit `"content_filter"` case falls through to
`default`) → `null`. -/
def mapFinishReason (finish_reason : String) : Option StopReason :=
  if finish_reason = "stop" then some .end_turn
  else if finish_reason = "length" then some .max_tokens
  else if finish_reason = "tool_calls" then some .tool_use
  else none

/-- A block of the produced Anthropic message content: the initial text
block (with its `citations: null` field) or a `tool_use` block. -/
inductive ResponseBlock where
  | text (t : String) (citations : Option String)
  | toolUse (id : String) (name : String) (input : Json)
deriving Repr

/-- The `usage` record of the produced Anthropic message. -/
structure MessageUsage where
  input_tokens : Nat
  output_tokens : Nat
  cache_creation_input_tokens : Nat
  cache_read_input_tokens : Nat
deriving Repr, DecidableEq

/-- The produced `Anthropic.Messages.Message` (`type` is the constant
`"message"`, `role` the constant `"assistant"`). -/
structure AnthropicMessage where
  id : String
  content : List ResponseBlock
  model : String
  stop_reason : Option StopReason
  stop_sequence : Option String
  usage : MessageUsage
deriving Repr

/-- The per-tool-call body of lines 203–216: parse
`toolCall.function.arguments || "\x7b\x7d"`; on failure log the error and
fall back to `\x7b\x7d`.  Returns the produced `tool_use` block and the
diagnostic entry, if one was emitted. -/
def convertToolCall (toolCall : BToolCall) : ResponseBlock × Option String :=
  match Json.parse (if toolCall.arguments = "" then "\x7b\x7d" else toolCall.arguments) with
  | some parsedInput => (.toolUse toolCall.id toolCall.name parsedInput, none)
  | none => (.toolUse toolCall.id toolCall.name (Json.obj []),
             some "Failed to parse tool arguments")

/-- Embedding of `convertToAnthropicMessage` (lines 165–220).  The source reads
`completion.choices[0]` unconditionally, so an empty `choices` array is the
one input shape on which it throws: the embedding returns `none` there.
Otherwise it returns the produced message together with the list of
diagnostic log entries (the `console.error` calls of the tool-call loop). -/
def convertToAnthropicMessage (completion : ChatCompletion) :
    Option (AnthropicMessage × List String) :=
  match completion.choices with
  | [] => none
  | choice :: _ =>
    let openAiMessage := choice.message
    let toolResults : List (ResponseBlock × Option String) :=
      match openAiMessage.tool_calls with
      | some tcs => if tcs.length > 0 then tcs.map convertToolCall else []
      | none => []
    some
      ({ id := completion.id
         content := ResponseBlock.text (openAiMessage.content.getD "") none
             :: toolResults.map Prod.fst
         model := completion.model
         stop_reason := mapFinishReason choice.finish_reason
         stop_sequence := none
         usage :=
           { input_tokens := match completion.usage with
               | some u => u.prompt_tokens
               | none => 0
             output_tokens := match completion.usage with
               | some u => u.completion_tokens
               | none => 0
             cache_creation_input_tokens := 0
             cache_read_input_tokens := 0 } },
       toolResults.filterMap Prod.snd)

/-! ## Declarative views of the partitions

The `reduce` passes above mirror the source's accumulator loops.  The
claims speak of "the tool-result blocks of the turn, in original order"
and "the text/image blocks of the turn, in original order"; the following
`filterMap` extractions are that declarative reading, and the lemmas
below prove the loops compute exactly them. -/

def textImageOf : ContentBlock → Option TextOrImage
  | .text t => some (.text t)
  | .image src => some (.image src)
  | .toolUse _ _ _ => none
  | .toolResult _ _ => none

/-- The text/image blocks of a content array, in original order. -/
def textImageBlocks (blocks : List ContentBlock) : List TextOrImage :=
  blocks.filterMap textImageOf

def toolResultOf : ContentBlock → Option ToolResultMsg
  | .toolResult id c => some ⟨id, c⟩
  | _ => none

/-- The `tool_result` blocks of a content array, in original order. -/
def toolResultBlocks (blocks : List ContentBlock) : List ToolResultMsg :=
  blocks.filterMap toolResultOf

def toolUseOf : ContentBlock → Option (String × String × Json)
  | .toolUse id name input => some (id, name, input)
  | _ => none

/-- The `tool_use` blocks of a content array, in original order. -/
def toolUseBlocks (blocks : List ContentBlock) : List (String × String × Json) :=
  blocks.filterMap toolUseOf

def imageSourceOf : ContentBlock → Option ImageSource
  | .image src => some src
  | _ => none

/-- The URL `getImageUrl` puts in the produced part, as a plain function of
the image source. -/
def imageUrlString : ImageSource → String
  | .base64 media_type data => "data:" ++ media_type ++ ";base64," ++ data
  | .url u => u

/-- All image URLs appearing anywhere in a format-B turn list. -/
def imageUrlsOf (ms : List OpenAiMessage) : List String :=
  ms.flatMap fun m =>
    match m with
    | .user (.parts ps) => ps.filterMap fun p =>
        match p with
        | .imageUrl u => some u
        | .text _ => none
    | _ => []

lemma partitionUser_foldl (blocks : List ContentBlock)
    (acc : List TextOrImage × List ToolResultMsg) :
    blocks.foldl
      (fun acc part =>
        match part with
        | .toolResult id c => (acc.1, acc.2 ++ [⟨id, c⟩])
        | .text t => (acc.1 ++ [.text t], acc.2)
        | .image src => (acc.1 ++ [.image src], acc.2)
        | .toolUse _ _ _ => acc)
      acc
    = (acc.1 ++ textImageBlocks blocks, acc.2 ++ toolResultBlocks blocks) := by
  induction blocks generalizing acc with
  | nil => simp [textImageBlocks, toolResultBlocks]
  | cons hd tl ih =>
    cases hd <;>
      simp [List.foldl_cons, ih, textImageBlocks, toolResultBlocks,
        textImageOf, toolResultOf, List.filterMap_cons]

lemma partitionUserBlocks_eq (blocks : List ContentBlock) :
    partitionUserBlocks blocks = (textImageBlocks blocks, toolResultBlocks blocks) := by
  unfold partitionUserBlocks
  rw [partitionUser_foldl]
  simp

lemma partitionAssistant_foldl (blocks : List ContentBlock)
    (acc : List TextOrImage × List (String × String × Json)) :
    blocks.foldl
      (fun acc part =>
        match part with
        | .toolUse id name input => (acc.1, acc.2 ++ [(id, name, input)])
        | .text t => (acc.1 ++ [.text t], acc.2)
        | .image src => (acc.1 ++ [.image src], acc.2)
        | .toolResult _ _ => acc)
      acc
    = (acc.1 ++ textImageBlocks blocks, acc.2 ++ toolUseBlocks blocks) := by
  induction blocks generalizing acc with
  | nil => simp [textImageBlocks, toolUseBlocks]
  | cons hd tl ih =>
    cases hd <;>
      simp [List.foldl_cons, ih, textImageBlocks, toolUseBlocks,
        textImageOf, toolUseOf, List.filterMap_cons]

lemma partitionAssistantBlocks_eq (blocks : List ContentBlock) :
    partitionAssistantBlocks blocks = (textImageBlocks blocks, toolUseBlocks blocks) := by
  unfold partitionAssistantBlocks
  rw [partitionAssistant_foldl]
  simp

lemma convertUserBlocks_eq (blocks : List ContentBlock) :
    convertUserBlocks blocks =
      (toolResultBlocks blocks).map
        (fun tm => OpenAiMessage.tool tm.tool_use_id (flattenToolResultContent tm.content).1)
      ++ (if textImageBlocks blocks = [] then []
          else [OpenAiMessage.user (.parts ((textImageBlocks blocks).map fun part =>
            match part with
            | .image src => getImageUrl src
            | .text t => .text t))]) := by
  unfold convertUserBlocks
  rw [partitionUserBlocks_eq]
  by_cases h : textImageBlocks blocks = [] <;> simp [h]

lemma convertAssistantBlocks_eq (blocks : List ContentBlock) :
    convertAssistantBlocks blocks =
      OpenAiMessage.assistant
        (if textImageBlocks blocks = [] then none
         else some (String.intercalate "\n" ((textImageBlocks blocks).map fun part =>
           match part with
           | .image _ => ""
           | .text t => t)))
        (if (toolUseBlocks blocks).isEmpty then none
         else some ((toolUseBlocks blocks).map fun tm =>
           ⟨tm.1, tm.2.1, Json.stringify tm.2.2⟩)) := by
  unfold convertAssistantBlocks
  rw [partitionAssistantBlocks_eq]
  by_cases h1 : textImageBlocks blocks = [] <;>
    cases h2 : toolUseBlocks blocks <;>
      simp [h1, h2]

lemma convertToOpenAiMessages_foldl (msgs : List MessageParam) (acc : List OpenAiMessage) :
    msgs.foldl (fun a m => a ++ convertMessage m) acc = acc ++ convertToOpenAiMessages msgs := by
  induction msgs generalizing acc with
  | nil => simp [convertToOpenAiMessages]
  | cons m ms ih =>
    rw [List.foldl_cons, ih]
    conv_rhs => rw [convertToOpenAiMessages, List.foldl_cons, ih]
    simp

lemma convertToOpenAiMessages_cons (m : MessageParam) (ms : List MessageParam) :
    convertToOpenAiMessages (m :: ms) = convertMessage m ++ convertToOpenAiMessages ms := by
  rw [convertToOpenAiMessages, List.foldl_cons, convertToOpenAiMessages_foldl]
  simp

lemma convertToOpenAiMessages_append (xs ys : List MessageParam) :
    convertToOpenAiMessages (xs ++ ys)
      = convertToOpenAiMessages xs ++ convertToOpenAiMessages ys := by
  rw [convertToOpenAiMessages, List.foldl_append, convertToOpenAiMessages_foldl]
  rfl

lemma imageUrlsOf_append (xs ys : List OpenAiMessage) :
    imageUrlsOf (xs ++ ys) = imageUrlsOf xs ++ imageUrlsOf ys := by
  simp [imageUrlsOf]

lemma imageUrlsOf_tool_map (l : List ToolResultMsg) :
    imageUrlsOf (l.map fun tm =>
      OpenAiMessage.tool tm.tool_use_id (flattenToolResultContent tm.content).1) = [] := by
  induction l with
  | nil => rfl
  | cons hd tl _ => simp [imageUrlsOf]

lemma textImage_partUrls (bs : List ContentBlock) :
    ((textImageBlocks bs).map fun part =>
      match part with
      | .image src => getImageUrl src
      | .text t => BContentPart.text t).filterMap
      (fun p =>
        match p with
        | .imageUrl u => some u
        | .text _ => none)
    = (bs.filterMap imageSourceOf).map imageUrlString := by
  induction bs with
  | nil => rfl
  | cons hd tl ih =>
    cases hd with
    | text t =>
      simpa [textImageBlocks, textImageOf, imageSourceOf, List.filterMap_cons] using ih
    | image src =>
      cases src <;>
        simpa [textImageBlocks, textImageOf, imageSourceOf, getImageUrl, imageUrlString,
          List.filterMap_cons] using ih
    | toolUse id name input =>
      simpa [textImageBlocks, textImageOf, imageSourceOf, List.filterMap_cons] using ih
    | toolResult id c =>
      simpa [textImageBlocks, textImageOf, imageSourceOf, List.filterMap_cons] using ih

lemma imageUrls_user (bs : List ContentBlock) :
    imageUrlsOf (convertUserBlocks bs) = (bs.filterMap imageSourceOf).map imageUrlString := by
  rw [convertUserBlocks_eq, imageUrlsOf_append, imageUrlsOf_tool_map]
  by_cases h : textImageBlocks bs = []
  · have hp := textImage_partUrls bs
    rw [h] at hp
    simp only [List.map_nil, List.filterMap_nil] at hp
    simp [h, imageUrlsOf, ← hp]
  · have hp := textImage_partUrls bs
    simp [h, imageUrlsOf, hp]

lemma imageUrls_global (msgs : List MessageParam) :
    imageUrlsOf (convertToOpenAiMessages msgs)
      = msgs.flatMap fun m =>
          match m with
          | ⟨ARole.user, AContent.blocks bs⟩ => (bs.filterMap imageSourceOf).map imageUrlString
          | _ => [] := by
  induction msgs with
  | nil => rfl
  | cons m ms ih =>
    rw [convertToOpenAiMessages_cons, imageUrlsOf_append, ih, List.flatMap_cons]
    congr 1
    rcases m with ⟨role, content⟩
    cases role <;> cases content
    case user.str s => rfl
    case user.blocks bs => exact imageUrls_user bs
    case assistant.str s => rfl
    case assistant.blocks bs =>
      simp [convertMessage, convertAssistantBlocks_eq, imageUrlsOf]

/-- Claim C1: for a format-A user turn whose content is a block sequence,
the forward translator emits the tool-result blocks first, each as a
separate role-`"tool"` turn with `tool_call_id` equal to that block's
`tool_use_id`, in their original relative order, immediately followed by at
most one role-`"user"` turn aggregating the text/image blocks, emitted only
when there is at least one such block. -/
theorem user_turn_tool_results_first (pre post : List MessageParam) (bs : List ContentBlock) :
    convertToOpenAiMessages (pre ++ ⟨ARole.user, AContent.blocks bs⟩ :: post) =
      convertToOpenAiMessages pre
      ++ ((toolResultBlocks bs).map fun tm =>
            OpenAiMessage.tool tm.tool_use_id (flattenToolResultContent tm.content).1)
      ++ (if textImageBlocks bs = [] then []
          else [OpenAiMessage.user (.parts ((textImageBlocks bs).map fun part =>
            match part with
            | .image src => getImageUrl src
            | .text t => .text t))])
      ++ convertToOpenAiMessages post := by
  rw [convertToOpenAiMessages_append, convertToOpenAiMessages_cons]
  simp [convertMessage, convertUserBlocks_eq]

/-- Claim C2: for a format-A assistant turn whose content is a block
sequence, the forward translator emits exactly one format-B assistant turn:
`content` is the text blocks joined with `"\n"` (absent when there are no
text/image blocks; an image block contributes the empty string), and
`tool_calls` maps each `tool_use` block to its function-call record with
JSON-serialized arguments when at least one exists, and is absent (never an
empty sequence) otherwise. -/
theorem assistant_turn_single_message (pre post : List MessageParam) (bs : List ContentBlock) :
    convertToOpenAiMessages (pre ++ ⟨ARole.assistant, AContent.blocks bs⟩ :: post) =
      convertToOpenAiMessages pre
      ++ [OpenAiMessage.assistant
            (if textImageBlocks bs = [] then none
             else some (String.intercalate "\n" ((textImageBlocks bs).map fun part =>
               match part with
               | .image _ => ""
               | .text t => t)))
            (if (toolUseBlocks bs).isEmpty then none
             else some ((toolUseBlocks bs).map fun tm =>
               ⟨tm.1, tm.2.1, Json.stringify tm.2.2⟩))]
      ++ convertToOpenAiMessages post := by
  rw [convertToOpenAiMessages_append, convertToOpenAiMessages_cons]
  simp [convertMessage, convertAssistantBlocks_eq]

/-- Claim C3: a tool-result block whose content is a block sequence is
reduced to a single string — text parts joined with `"\n"`, each image part
replaced by the exact placeholder `"(see following user message for
image)"` — and the substituted images are never re-emitted: every image URL
in the translator's output comes from a top-level image block of a user
turn. -/
theorem tool_result_images_flattened_not_reemitted (id : String) (ps : List TextOrImage)
    (msgs : List MessageParam) :
    convertUserBlocks [ContentBlock.toolResult id (some (ToolResultContent.parts ps))]
      = [OpenAiMessage.tool id (String.intercalate "\n" (ps.map fun part =>
          match part with
          | .image _ => "(see following user message for image)"
          | .text t => t))] ∧
    imageUrlsOf (convertToOpenAiMessages msgs)
      = msgs.flatMap fun m =>
          match m with
          | ⟨ARole.user, AContent.blocks bs⟩ => (bs.filterMap imageSourceOf).map imageUrlString
          | _ => [] :=
  ⟨rfl, imageUrls_global msgs⟩

/-- Claim C4: an image block forward-translates to an image part whose URL
is exactly `"data:" ++ media_type ++ ";base64," ++ data` for a base64
source and exactly the source URL verbatim for a URL source. -/
theorem image_url_construction (media_type data u : String) :
    convertUserBlocks [ContentBlock.image (ImageSource.base64 media_type data)]
      = [OpenAiMessage.user (.parts [.imageUrl ("data:" ++ media_type ++ ";base64," ++ data)])] ∧
    convertUserBlocks [ContentBlock.image (ImageSource.url u)]
      = [OpenAiMessage.user (.parts [.imageUrl u])] ∧
    getImageUrl (ImageSource.base64 media_type data)
      = .imageUrl ("data:" ++ media_type ++ ";base64," ++ data) ∧
    getImageUrl (ImageSource.url u) = .imageUrl u :=
  ⟨rfl, rfl, rfl, rfl⟩

/-- Claim C9: a block kind disallowed for its turn's role is silently
dropped — inserting a `tool_use` block anywhere in a user turn's content,
or a `tool_result` block anywhere in an assistant turn's content, leaves
the emitted format-B turns unchanged. -/
theorem disallowed_blocks_silently_dropped (pre post : List ContentBlock)
    (id name : String) (input : Json) (trid : String) (trc : Option ToolResultContent) :
    convertUserBlocks (pre ++ ContentBlock.toolUse id name input :: post)
      = convertUserBlocks (pre ++ post) ∧
    convertAssistantBlocks (pre ++ ContentBlock.toolResult trid trc :: post)
      = convertAssistantBlocks (pre ++ post) := by
  have hti : textImageBlocks (pre ++ ContentBlock.toolUse id name input :: post)
      = textImageBlocks (pre ++ post) := by
    simp [textImageBlocks, List.filterMap_append, List.filterMap_cons, textImageOf]
  have htr : toolResultBlocks (pre ++ ContentBlock.toolUse id name input :: post)
      = toolResultBlocks (pre ++ post) := by
    simp [toolResultBlocks, List.filterMap_append, List.filterMap_cons, toolResultOf]
  have hti2 : textImageBlocks (pre ++ ContentBlock.toolResult trid trc :: post)
      = textImageBlocks (pre ++ post) := by
    simp [textImageBlocks, List.filterMap_append, List.filterMap_cons, textImageOf]
  have htu : toolUseBlocks (pre ++ ContentBlock.toolResult trid trc :: post)
      = toolUseBlocks (pre ++ post) := by
    simp [toolUseBlocks, List.filterMap_append, List.filterMap_cons, toolUseOf]
  constructor
  · rw [convertUserBlocks_eq, convertUserBlocks_eq, hti, htr]
  · rw [convertAssistantBlocks_eq, convertAssistantBlocks_eq, hti2, htu]

/-! ## Reverse-direction lemmas and claims -/

lemma filterMap_snd_convertToolCall (l : List BToolCall) :
    List.filterMap Prod.snd (l.map convertToolCall)
      = l.filterMap fun tc => (convertToolCall tc).2 := by
  rw [List.filterMap_map]
  rfl

lemma convertToAnthropicMessage_cons (completion : ChatCompletion)
    (choice : CompletionChoice) (rest : List CompletionChoice)
    (hc : completion.choices = choice :: rest) :
    convertToAnthropicMessage completion = some
      ({ id := completion.id
         content := ResponseBlock.text (choice.message.content.getD "") none
             :: ((choice.message.tool_calls.getD []).map fun tc => (convertToolCall tc).1)
         model := completion.model
         stop_reason := mapFinishReason choice.finish_reason
         stop_sequence := none
         usage :=
           { input_tokens := match completion.usage with
               | some u => u.prompt_tokens
               | none => 0
             output_tokens := match completion.usage with
               | some u => u.completion_tokens
               | none => 0
             cache_creation_input_tokens := 0
             cache_read_input_tokens := 0 } },
       (choice.message.tool_calls.getD []).filterMap fun tc => (convertToolCall tc).2) := by
  unfold convertToAnthropicMessage
  rw [hc]
  cases htc : choice.message.tool_calls with
  | none => simp [htc]
  | some tcs =>
    cases tcs with
    | nil => simp [htc]
    | cons a l =>
      simp [htc, List.map_map, Function.comp]
      exact filterMap_snd_convertToolCall (a :: l)

/-- Claim C5: the reverse translator maps the finish reason `"stop"` to
`end_turn`, `"length"` to `max_tokens`, `"tool_calls"` to `tool_use`, and
any other value — including `"content_filter"` and unrecognized strings —
to `null`; the produced message's `stop_reason` is exactly this mapping of
the first choice's finish reason. -/
theorem finish_reason_mapping (s : String) (completion : ChatCompletion)
    (choice : CompletionChoice) (rest : List CompletionChoice)
    (hc : completion.choices = choice :: rest)
    (h1 : s ≠ "stop") (h2 : s ≠ "length") (h3 : s ≠ "tool_calls") :
    mapFinishReason "stop" = some StopReason.end_turn ∧
    mapFinishReason "length" = some StopReason.max_tokens ∧
    mapFinishReason "tool_calls" = some StopReason.tool_use ∧
    mapFinishReason "content_filter" = none ∧
    mapFinishReason s = none ∧
    ∃ m logs, convertToAnthropicMessage completion = some (m, logs) ∧
      m.stop_reason = mapFinishReason choice.finish_reason := by
  refine ⟨by simp [mapFinishReason], by simp [mapFinishReason], by simp [mapFinishReason],
    by simp [mapFinishReason], by simp [mapFinishReason, h1, h2, h3], ?_⟩
  exact ⟨_, _, convertToAnthropicMessage_cons completion choice rest hc, rfl⟩

def c5Choice : CompletionChoice := ⟨⟨some "t", none⟩, "content_filter"⟩

def c5Completion : ChatCompletion := ⟨"c5", "m5", [c5Choice], none⟩

theorem finish_reason_mapping_witness :
    c5Completion.choices = c5Choice :: [] ∧
    ("banana" : String) ≠ "stop" ∧ ("banana" : String) ≠ "length" ∧
    ("banana" : String) ≠ "tool_calls" ∧
    (mapFinishReason "stop" = some StopReason.end_turn ∧
     mapFinishReason "length" = some StopReason.max_tokens ∧
     mapFinishReason "tool_calls" = some StopReason.tool_use ∧
     mapFinishReason "content_filter" = none ∧
     mapFinishReason "banana" = none ∧
     ∃ m logs, convertToAnthropicMessage c5Completion = some (m, logs) ∧
       m.stop_reason = mapFinishReason c5Choice.finish_reason) :=
  ⟨rfl, by decide, by decide, by decide,
   finish_reason_mapping "banana" c5Completion c5Choice [] rfl (by decide) (by decide) (by decide)⟩

/-- Claim C6: a tool call whose arguments string is not valid JSON does not
abort the reverse translation — its block's `input` falls back to the empty
object and one diagnostic entry is emitted — and the remaining tool calls
and fields are still translated. -/
theorem malformed_tool_arguments_recovered (completion : ChatCompletion)
    (choice : CompletionChoice) (rest : List CompletionChoice) (tcs : List BToolCall)
    (hc : completion.choices = choice :: rest)
    (ht : choice.message.tool_calls = some tcs) :
    (∃ m logs, convertToAnthropicMessage completion = some (m, logs) ∧
      m.content = ResponseBlock.text (choice.message.content.getD "") none
          :: tcs.map (fun tc => (convertToolCall tc).1) ∧
      logs = tcs.filterMap fun tc => (convertToolCall tc).2) ∧
    ∀ tc : BToolCall, tc.arguments ≠ "" → Json.parse tc.arguments = none →
      convertToolCall tc = (ResponseBlock.toolUse tc.id tc.name (Json.obj []),
        some "Failed to parse tool arguments") := by
  constructor
  · refine ⟨_, _, convertToAnthropicMessage_cons completion choice rest hc, ?_, ?_⟩
    · simp [ht]
    · simp [ht]
  · intro tc hne hp
    unfold convertToolCall
    rw [if_neg hne, hp]

def c6Call : BToolCall := ⟨"call_1", "fn", "not json"⟩

def c6Choice : CompletionChoice := ⟨⟨some "ok", some [c6Call]⟩, "tool_calls"⟩

def c6Completion : ChatCompletion := ⟨"cmpl", "m6", [c6Choice], none⟩

theorem malformed_tool_arguments_recovered_witness :
    c6Completion.choices = c6Choice :: [] ∧
    c6Choice.message.tool_calls = some [c6Call] ∧
    ((∃ m logs, convertToAnthropicMessage c6Completion = some (m, logs) ∧
        m.content = ResponseBlock.text (c6Choice.message.content.getD "") none
            :: [c6Call].map (fun tc => (convertToolCall tc).1) ∧
        logs = [c6Call].filterMap fun tc => (convertToolCall tc).2) ∧
      ∀ tc : BToolCall, tc.arguments ≠ "" → Json.parse tc.arguments = none →
        convertToolCall tc = (ResponseBlock.toolUse tc.id tc.name (Json.obj []),
          some "Failed to parse tool arguments")) ∧
    convertToolCall c6Call = (ResponseBlock.toolUse "call_1" "fn" (Json.obj []),
      some "Failed to parse tool arguments") :=
  ⟨rfl, rfl,
   malformed_tool_arguments_recovered c6Completion c6Choice [] [c6Call] rfl rfl,
   (malformed_tool_arguments_recovered c6Completion c6Choice [] [c6Call] rfl rfl).2
     c6Call (by decide) (by rfl)⟩

/-- Claim C7: a completion with no usage object reverse-translates to a
usage record with `input_tokens = 0` and `output_tokens = 0`; and for every
completion the cache counters are `0`. -/
theorem usage_defaulting (completion : ChatCompletion) (choice : CompletionChoice)
    (rest : List CompletionChoice) (hc : completion.choices = choice :: rest) :
    ∃ m logs, convertToAnthropicMessage completion = some (m, logs) ∧
      (completion.usage = none → m.usage = ⟨0, 0, 0, 0⟩) ∧
      ∀ u, completion.usage = some u →
        m.usage = ⟨u.prompt_tokens, u.completion_tokens, 0, 0⟩ := by
  refine ⟨_, _, convertToAnthropicMessage_cons completion choice rest hc, ?_, ?_⟩
  · intro hu
    simp [hu]
  · intro u hu
    simp [hu]

def c7Choice : CompletionChoice := ⟨⟨some "hi", none⟩, "stop"⟩

def c7Completion : ChatCompletion := ⟨"c7", "m7", [c7Choice], none⟩

theorem usage_defaulting_witness :
    c7Completion.choices = c7Choice :: [] ∧
    ∃ m logs, convertToAnthropicMessage c7Completion = some (m, logs) ∧
      (c7Completion.usage = none → m.usage = ⟨0, 0, 0, 0⟩) ∧
      ∀ u, c7Completion.usage = some u →
        m.usage = ⟨u.prompt_tokens, u.completion_tokens, 0, 0⟩ :=
  ⟨rfl, usage_defaulting c7Completion c7Choice [] rfl⟩

/-- Claim C8: the reverse translation succeeds exactly when the completion
carries at least one candidate choice — for well-formed input no step
fails (the forward translator is a total function by construction, and the
malformed-argument path is recovered inside `convertToolCall`). -/
theorem reverse_translation_total (completion : ChatCompletion) :
    (convertToAnthropicMessage completion).isSome ↔ completion.choices ≠ [] := by
  cases hc : completion.choices with
  | nil => simp [convertToAnthropicMessage, hc]
  | cons choice rest =>
    simp [convertToAnthropicMessage_cons completion choice rest hc, hc]

/-- Claim C10: the reverse translator copies the completion's `model` field
verbatim into the produced format-A message's `model` field. -/
theorem model_field_copied (completion : ChatCompletion) (choice : CompletionChoice)
    (rest : List CompletionChoice) (hc : completion.choices = choice :: rest) :
    ∃ m logs, convertToAnthropicMessage completion = some (m, logs) ∧
      m.model = completion.model :=
  ⟨_, _, convertToAnthropicMessage_cons completion choice rest hc, rfl⟩

def c10Choice : CompletionChoice := ⟨⟨none, none⟩, "stop"⟩

def c10Completion : ChatCompletion := ⟨"c10", "model-x", [c10Choice], some ⟨3, 5⟩⟩

theorem model_field_copied_witness :
    c10Completion.choices = c10Choice :: [] ∧
    ∃ m logs, convertToAnthropicMessage c10Completion = some (m, logs) ∧
      m.model = c10Completion.model :=
  ⟨rfl, model_field_copied c10Completion c10Choice [] rfl⟩
